import Mathlib

/-!
Verification of the execution-environment core of the
`amplifier-bundle-execution-environments` repository.

We give a shallow embedding of:
- `env_filter.py`  (env-var policy filtering),
- `registry.py`    (EnvironmentRegistry: register / get / destroy / destroy_all),
- the shared `edit_file` patch logic of the local, docker and ssh backends,
- `local.py`       (exec_command result construction, grep result handling,
                    `_resolve` path sandboxing),
- `docker.py` / `ssh.py` (remote exec_command result construction, grep).

Effectful code is embedded by making the effect outcomes explicit parameters
(e.g. a backend cleanup is a function `β → Except ε Unit`; the wait on a child
process is a `WaitOutcome` value; clock reads are explicit `Nat` millisecond
timestamps).  Python dict environments are embedded as lookup functions
`String → Option String`; the registry dict (insertion ordered, unique keys)
is embedded as a list of instances with a names-nodup invariant.
-/

/-! ## Env-var filtering (`env_filter.py`) -/

/-- `EnvVarPolicy` from `env_filter.py`. -/
inductive EnvVarPolicy where
  | inherit_all
  | core_only
  | inherit_none
deriving DecidableEq

/-- `CORE_VARS` from `env_filter.py`: vars always preserved under core_only. -/
def CORE_VARS : List String :=
  [ "PATH", "HOME", "USER", "SHELL", "LANG", "TERM", "TMPDIR",
    "GOPATH", "CARGO_HOME", "NVM_DIR", "PYENV_ROOT", "JAVA_HOME", "RUSTUP_HOME" ]

/-- `SECRET_SUFFIXES` from `env_filter.py`. -/
def SECRET_SUFFIXES : List String :=
  [ "_API_KEY", "_SECRET", "_TOKEN", "_PASSWORD", "_CREDENTIAL", "_AUTH" ]

/-- `_is_secret` from `env_filter.py`: `name.upper()` followed by a suffix
match against `SECRET_SUFFIXES`.  The upper-casing and `str.endswith` are
embedded over the character list so that they compute. -/
def is_secret (name : String) : Bool :=
  SECRET_SUFFIXES.any (fun suffix =>
    suffix.data.isSuffixOf (name.data.map Char.toUpper))

/-- A Python `dict[str, str]` embedded by its lookup function. -/
abbrev Env : Type := String → Option String

/-- `filter_env_vars` from `env_filter.py`: apply the policy to `base_env`,
then merge the explicit overrides last (`result.update(explicit_vars)`). -/
def filter_env_vars (policy : EnvVarPolicy) (base_env : Env) (explicit_vars : Env) :
    Env :=
  let result : Env :=
    match policy with
    | .inherit_all => base_env
    | .core_only =>
        fun k =>
          if CORE_VARS.contains k || !(is_secret k) then base_env k else none
    | .inherit_none => fun _ => none
  fun k =>
    match explicit_vars k with
    | some v => some v
    | none => result k

/-! ## EnvironmentRegistry (`registry.py`) -/

/-- `EnvironmentInstance` from `registry.py`.  The backend object is abstracted
by a type parameter `β`; the metadata dict is embedded as an association list. -/
structure EnvironmentInstance (β : Type) where
  name : String
  backend : β
  env_type : String
  metadata : List (String × String)
  owned : Bool
deriving DecidableEq

/-- The registry dict `self._instances : dict[str, EnvironmentInstance]`,
embedded as an insertion-ordered list keyed by `.name`. -/
abbrev Registry (β : Type) : Type := List (EnvironmentInstance β)

/-- The dict-key uniqueness that `dict[str, ...]` guarantees by construction. -/
def NamesNodup {β : Type} (reg : Registry β) : Prop :=
  (List.map (fun i => i.name) reg).Nodup

instance {β : Type} (reg : Registry β) : Decidable (NamesNodup reg) := by
  unfold NamesNodup
  infer_instance

/-- `EnvironmentRegistry.register`: raises `ValueError` on a duplicate name,
otherwise inserts the new instance (dict insertion appends). -/
def register {β : Type} (reg : Registry β) (name : String) (backend : β)
    (env_type : String) (metadata : List (String × String)) (owned : Bool) :
    Except String (Registry β) :=
  if reg.any (fun i => i.name == name) then
    .error ("Instance already exists: " ++ name)
  else
    .ok (reg ++ [⟨name, backend, env_type, metadata, owned⟩])

/-- `EnvironmentRegistry.get`: the backend by name, or `none`. -/
def getInstance {β : Type} (reg : Registry β) (name : String) : Option β :=
  (reg.find? (fun i => i.name == name)).map (fun i => i.backend)

/-- Failure outcomes of `destroy`: the `KeyError` for an unknown name, or a
propagated exception from the backend cleanup. -/
inductive DestroyErr (ε : Type) where
  | notFound
  | cleanupFailed (e : ε)
deriving DecidableEq

/-- `EnvironmentRegistry.destroy`: pop the entry first, then call the backend
cleanup.  The cleanup effect is the oracle `clr : β → Except ε Unit`.
Returns the new registry state, the trace of `(name, backend)` cleanup calls
made, and the outcome. -/
def destroy {β ε : Type} (clr : β → Except ε Unit) (reg : Registry β)
    (name : String) : Registry β × List (String × β) × Except (DestroyErr ε) Unit :=
  match reg.find? (fun i => i.name == name) with
  | none => (reg, [], .error .notFound)
  | some inst =>
      (reg.eraseP (fun i => i.name == name), [(inst.name, inst.backend)],
        match clr inst.backend with
        | .ok _ => .ok ()
        | .error e => .error (.cleanupFailed e))

/-- The loop body of `EnvironmentRegistry.destroy_all`: destroy each listed
name in order, keeping the first error encountered. -/
def destroyAllGo {β ε : Type} (clr : β → Except ε Unit) :
    Registry β → List String → Registry β × List (String × β) × Option (DestroyErr ε)
  | reg, [] => (reg, [], none)
  | reg, n :: rest =>
      let step := destroy clr reg n
      let tail := destroyAllGo clr step.1 rest
      (tail.1, step.2.1 ++ tail.2.1,
        match step.2.2 with
        | .error e => some e
        | .ok _ => tail.2.2)

/-- `EnvironmentRegistry.destroy_all`: snapshot the owned names, destroy each,
continue past failures, and re-raise the first failure at the end. -/
def destroy_all {β ε : Type} (clr : β → Except ε Unit) (reg : Registry β) :
    Registry β × List (String × β) × Except (DestroyErr ε) Unit :=
  let names := (reg.filter (fun i => i.owned)).map (fun i => i.name)
  let r := destroyAllGo clr reg names
  (r.1, r.2.1,
    match r.2.2 with
    | some e => .error e
    | none => .ok ())

/-- One row of `EnvironmentRegistry.list_instances()`.  The backend `info()`
fields are kept in `info`; per dict-merge semantics the fixed keys
name/type/metadata/owned override like-named `info()` keys. -/
structure InstanceView where
  info : List (String × String)
  name : String
  env_type : String
  metadata : List (String × String)
  owned : Bool
deriving DecidableEq

/-- `EnvironmentRegistry.list_instances`, with the backend `info()` method
embedded as the oracle `info : β → List (String × String)`. -/
def list_instances {β : Type} (info : β → List (String × String))
    (reg : Registry β) : List InstanceView :=
  reg.map (fun i => ⟨info i.backend, i.name, i.env_type, i.metadata, i.owned⟩)

/-- Registry states reachable through the public lifecycle operations.
The post-state of `destroy`/`destroy_all` does not depend on the cleanup
outcomes, so the constructors quantify over the cleanup oracle. -/
inductive Reachable {β : Type} : Registry β → Prop where
  | empty : Reachable []
  | registerStep (reg reg2 : Registry β) (name : String) (backend : β)
      (env_type : String) (metadata : List (String × String)) (owned : Bool) :
      Reachable reg → register reg name backend env_type metadata owned = .ok reg2 →
      Reachable reg2
  | destroyStep {ε : Type} (clr : β → Except ε Unit) (reg : Registry β)
      (name : String) : Reachable reg → Reachable (destroy clr reg name).1
  | destroyAllStep {ε : Type} (clr : β → Except ε Unit) (reg : Registry β) :
      Reachable reg → Reachable (destroy_all clr reg).1

/-! ## `edit_file` patch logic (identical in `local.py`, `docker.py`, `ssh.py`) -/

/-- The scan of Python `str.count` for a nonempty pattern: non-overlapping
occurrences, left to right (after a match the scan restarts past it). -/
def pyCountGo (p : List Char) : List Char → Nat
  | [] => 0
  | c :: rest =>
      if p.isPrefixOf (c :: rest) then
        pyCountGo p (rest.drop (p.length - 1)) + 1
      else
        pyCountGo p rest
termination_by l => l.length
decreasing_by
  all_goals simp [List.length_drop]
  omega

/-- Python `content.count(old)`: the empty pattern counts `len(content) + 1`. -/
def pyCount (s p : List Char) : Nat :=
  if p.isEmpty then s.length + 1 else pyCountGo p s

/-- First match position of `p` in `s`, scanning left to right. -/
def firstOcc (p : List Char) : List Char → Option Nat
  | [] => if p.isEmpty then some 0 else none
  | c :: rest =>
      if p.isPrefixOf (c :: rest) then some 0
      else (firstOcc p rest).map (fun i => i + 1)

/-- The scan of Python `content.replace(old, new, 1)` for nonempty `old`. -/
def pyReplaceOnceGo (old new : List Char) : List Char → List Char
  | [] => []
  | c :: rest =>
      if old.isPrefixOf (c :: rest) then new ++ (c :: rest).drop old.length
      else c :: pyReplaceOnceGo old new rest

/-- Python `content.replace(old, new, 1)`: replace the first occurrence;
an empty `old` inserts `new` at the front. -/
def pyReplaceOnce (s old new : List Char) : List Char :=
  if old.isEmpty then new ++ s else pyReplaceOnceGo old new s

/-- Specification-side notion: `p` occurs in `s` at position `i`. -/
def occursAt (s p : List Char) (i : Nat) : Prop :=
  p.isPrefixOf (s.drop i) = true

instance (s p : List Char) (i : Nat) : Decidable (occursAt s p i) := by
  unfold occursAt
  infer_instance

/-- Specification-side notion: `s` with the `p`-occurrence at position `i`
replaced by `new` (a single substring replacement). -/
def spliceAt (s p new : List Char) (i : Nat) : List Char :=
  s.take i ++ new ++ s.drop (i + p.length)

/-- The two `ValueError` cases of `edit_file`. -/
inductive EditError where
  | notFound
  | notUnique (count : Nat)
deriving DecidableEq

/-- The uniqueness-checked patch step shared verbatim by
`LocalBackend.edit_file`, `DockerBackend.edit_file` and
`SSHBackendWrapper.edit_file`: count occurrences, reject 0 and more than 1,
otherwise replace the first occurrence. -/
def edit_file (content old new : List Char) : Except EditError (List Char) :=
  let count := pyCount content old
  if count = 0 then .error .notFound
  else if count > 1 then .error (.notUnique count)
  else .ok (pyReplaceOnce content old new)

/-- `edit_file` acting on the file state: the write-back only happens after
the checks pass, so on failure the content is unchanged.  Returns the final
file content and the outcome (confirmation string or raised error). -/
def runEditFile (content old new : List Char) :
    List Char × Except EditError String :=
  match edit_file content old new with
  | .error e => (content, .error e)
  | .ok c => (c, .ok "replaced 1 occurrence")

/-! ## Local exec_command (`local.py`) -/

/-- `EnvExecResult` from `models.py`. -/
structure EnvExecResult where
  stdout : String
  stderr : String
  exit_code : Int
  timed_out : Bool
  duration_ms : Nat
deriving DecidableEq

/-- Outcome of `asyncio.wait_for(proc.communicate(), timeout)`: either the
process completed (captured output bytes, decoded here as `Option String`
with `None` for empty, and the `returncode`), or the wait timed out. -/
inductive WaitOutcome where
  | completed (stdout stderr : Option String) (returncode : Option Int)
  | timedOut
deriving DecidableEq

/-- Python `proc.returncode or 0`: falsy (`None` or `0`) becomes `0`. -/
def pyOrZero (rc : Option Int) : Int :=
  match rc with
  | none => 0
  | some c => if c == 0 then 0 else c

/-- Rendering of the timeout argument inside the diagnostic message. -/
def timeoutText (timeoutArg : Option Nat) : String :=
  match timeoutArg with
  | some t => toString t
  | none => "None"

/-- `LocalBackend.exec_command` result construction.  The wait outcome and
the monotonic-clock reads are explicit: `tStartMs` is the clock at start,
`tWaitEndMs` the clock when the wait returned or the `TimeoutError` was
caught.  On timeout the duration is computed at the catch site, before the
SIGTERM / grace / SIGKILL sequence runs; that sequence does not touch the
returned result. -/
def localExecCommand (cmd : String) (timeoutArg : Option Nat) (w : WaitOutcome)
    (tStartMs tWaitEndMs : Nat) : EnvExecResult :=
  match w with
  | .timedOut =>
      { stdout := ""
        stderr := "Command timed out after " ++ timeoutText timeoutArg ++ "s: " ++ cmd
        exit_code := -1
        timed_out := true
        duration_ms := tWaitEndMs - tStartMs }
  | .completed o e rc =>
      { stdout := o.getD ""
        stderr := e.getD ""
        exit_code := pyOrZero rc
        timed_out := false
        duration_ms := tWaitEndMs - tStartMs }

/-! ## Remote exec_command (`docker.py`, `ssh.py`) -/

/-- The containers-tool `exec` output dict; fields are read with
`.get(key, default)`, and a non-dict tool output is modelled as all-`none`. -/
structure ToolOutput where
  stdout : Option String
  stderr : Option String
  exit_code : Option Int
deriving DecidableEq

/-- The `export K=<quoted V> && ...` prefix both remote backends prepend for
`env_vars`; `q` is the `shlex.quote` oracle. -/
def exportsPrefix (q : String → String) (env_vars : List (String × String)) :
    String :=
  String.intercalate " && "
    (env_vars.map (fun kv => "export " ++ kv.1 ++ "=" ++ q kv.2))

/-- `DockerBackend.exec_command`: build `full_cmd`, pass timeout and workdir
through to the containers tool (oracle `remote`), and construct the result
with `timed_out := false` unconditionally. -/
def dockerExecCommand (q : String → String) (cmd : String)
    (env_vars : List (String × String)) (timeoutArg : Option Nat)
    (workdirArg : Option String)
    (remote : String → Option Nat → Option String → ToolOutput)
    (elapsedMs : Nat) : EnvExecResult :=
  let full_cmd :=
    if env_vars.isEmpty then cmd
    else exportsPrefix q env_vars ++ " && " ++ cmd
  let output := remote full_cmd timeoutArg workdirArg
  { stdout := output.stdout.getD ""
    stderr := output.stderr.getD ""
    exit_code := output.exit_code.getD 0
    timed_out := false
    duration_ms := elapsedMs }

/-- The object returned by the injected SSH exec callable. -/
structure SshRunResult where
  stdout : String
  stderr : String
  exit_code : Int
deriving DecidableEq

/-- `SSHBackendWrapper.exec_command`: prepend exports and the `cd` prefix
(`if workdir:` skips `None` and the empty string), run via the oracle, and
construct the result with `timed_out := false` unconditionally. -/
def sshExecCommand (q : String → String) (cmd : String)
    (env_vars : List (String × String)) (timeoutArg : Option Nat)
    (workdirArg : Option String) (remote : String → Option Nat → SshRunResult)
    (elapsedMs : Nat) : EnvExecResult :=
  let cmd1 :=
    if env_vars.isEmpty then cmd
    else exportsPrefix q env_vars ++ " && " ++ cmd
  let full_cmd :=
    match workdirArg with
    | some w => if w.isEmpty then cmd1 else "cd " ++ q w ++ " && " ++ cmd1
    | none => cmd1
  let r := remote full_cmd timeoutArg
  { stdout := r.stdout
    stderr := r.stderr
    exit_code := r.exit_code
    timed_out := false
    duration_ms := elapsedMs }

/-! ## grep result handling (`local.py`, `docker.py`, `ssh.py`) -/

/-- Python truthiness of `proc.returncode` (`None` and `0` are falsy). -/
def pyTruthyInt (rc : Option Int) : Bool :=
  match rc with
  | none => false
  | some c => !(c == 0)

/-- `LocalBackend.grep` outcome from the grep process exit status:
exit 1 is the no-matches value, `returncode and returncode > 1` raises
`RuntimeError`, otherwise the stdout text is returned. -/
def localGrep (rc : Option Int) (stdout stderr : String) :
    Except String String :=
  if rc == some 1 then .ok "No matches found."
  else if pyTruthyInt rc && rc.getD 0 > 1 then
    .error ("grep failed: " ++ stderr)
  else .ok stdout

/-- `DockerBackend.grep` outcome from the containers-tool output dict:
exit 1 is the no-matches value, anything else returns the stdout text. -/
def dockerGrep (output : ToolOutput) : Except String String :=
  if output.exit_code.getD 0 == 1 then .ok "No matches found."
  else .ok (output.stdout.getD "")

/-- `SSHBackendWrapper.grep` outcome from the remote exec result:
exit 1 is the no-matches value, anything else returns the stdout text. -/
def sshGrep (r : SshRunResult) : Except String String :=
  if r.exit_code == 1 then .ok "No matches found."
  else .ok r.stdout

/-! ## Path sandboxing (`local.py` `_resolve` and `exec_command` cwd) -/

/-- A path argument: absolute flag plus components, which may contain `"."`
and `".."` segments. -/
structure RawPath where
  absolute : Bool
  comps : List String
deriving DecidableEq

/-- One step of lexical resolution: `"."` and empty segments are skipped,
`".."` pops (staying at the root when already there). -/
def resolveStep (acc : List String) (c : String) : List String :=
  if c == "." || c == "" then acc
  else if c == ".." then acc.dropLast
  else acc ++ [c]

/-- `Path.resolve()` in a symlink-free filesystem: lexical normalization of
an absolute component list. -/
def normComps (comps : List String) : List String :=
  comps.foldl resolveStep []

/-- `p.resolve()` for an absolute path, `(working_dir / p).resolve()` for a
relative one. -/
def resolveAgainst (workingDir : List String) (p : RawPath) : List String :=
  if p.absolute then normComps p.comps else normComps (workingDir ++ p.comps)

/-- `LocalBackend._resolve`: resolve, then require
`resolved.is_relative_to(working)`.  `workingDir` is the backend working
directory as an absolute component list (`os.path.abspath` at construction).
Every file operation of the local backend (`read_file`, `write_file`,
`edit_file`, `file_exists`, `list_dir`, `grep`, `glob_files`) routes its path
argument through this check before touching the filesystem. -/
def localResolve (workingDir : List String) (p : RawPath) :
    Except String (List String) :=
  let resolved := resolveAgainst workingDir p
  let working := normComps workingDir
  if working.isPrefixOf resolved then .ok resolved
  else .error "Path escapes working directory"

/-- The cwd computation of `LocalBackend.exec_command`:
`cwd = workdir or self._working_dir`.  The workdir argument is used as
given and never passed through `_resolve`; this computation cannot fail. -/
def localExecCwd (workingDir : List String) (workdirArg : Option RawPath) :
    Except String RawPath :=
  .ok (match workdirArg with
       | some w => w
       | none => ⟨true, workingDir⟩)

/-! ## Specification-side helpers and concrete fixtures -/

/-- The first cleanup failure among a list of instances, in iteration order
(the value `destroy_all` is specified to re-raise). -/
def firstCleanupErr {β ε : Type} (clr : β → Except ε Unit)
    (insts : List (EnvironmentInstance β)) : Option (DestroyErr ε) :=
  insts.findSome? (fun i =>
    match clr i.backend with
    | .error e => some (DestroyErr.cleanupFailed e)
    | .ok _ => none)

/-- Fixture: a base environment with one ordinary variable. -/
def baseEnvW : Env := fun k => if k == "FOO" then some "1" else none

/-- Fixture: explicit overrides setting the same variable to another value. -/
def explicitEnvW : Env := fun k => if k == "FOO" then some "2" else none

/-- Fixture: a base environment with a secret-suffixed and a plain variable. -/
def baseEnvSecretW : Env :=
  fun k =>
    if k == "MY_TOKEN" then some "s"
    else if k == "FOO" then some "1"
    else none

/-- Fixture: empty explicit overrides. -/
def emptyEnvW : Env := fun _ => none

/-- Fixture: a cleanup oracle where backend `1` fails and the rest succeed. -/
def clrW : Nat → Except String Unit :=
  fun b => if b == 1 then .error "boom" else .ok ()

/-- Fixture: a registry with two owned entries (the first with the failing
backend `1`) and one unowned entry. -/
def regW : Registry Nat :=
  [ ⟨"a", 1, "local", [], true⟩,
    ⟨"b", 2, "docker", [], false⟩,
    ⟨"c", 3, "ssh", [], true⟩ ]

/-- Fixture: a trivial backend `info()` oracle. -/
def infoW : Nat → List (String × String) := fun _ => []

/-! ## C7: explicit overrides always present -/

/-- C7: for every policy (inherit_all, core_only, inherit_none), every base
environment and every explicit-overrides mapping, the result of
`filter_env_vars` contains every key-value pair of the explicit overrides —
they are applied last and unconditionally, visible even under inherit_none. -/
theorem C7_explicit_always_present (policy : EnvVarPolicy) (base explicit : Env)
    (k v : String) (h : explicit k = some v) :
    filter_env_vars policy base explicit k = some v := by
  unfold filter_env_vars
  simp only [h]

theorem C7_witness :
    explicitEnvW "FOO" = some "2" ∧
    filter_env_vars .inherit_none baseEnvW explicitEnvW "FOO" = some "2" :=
  ⟨rfl, C7_explicit_always_present .inherit_none baseEnvW explicitEnvW
    "FOO" "2" rfl⟩

/-! ## C8: core_only secret filtering -/

/-- C8 counterexample: the key `FOO` does not match a secret suffix and is not
excluded by the core_only filter, yet its value is not kept unchanged — the
explicit override replaces it, so the claim that every non-secret,
non-excluded base key is "kept with its value unchanged" fails. -/
theorem C8_counterexample :
    is_secret "FOO" = false ∧
    baseEnvW "FOO" = some "1" ∧
    filter_env_vars .core_only baseEnvW explicitEnvW "FOO" = some "2" ∧
    filter_env_vars .core_only baseEnvW explicitEnvW "FOO" ≠ some "1" := by
  refine ⟨by decide, rfl, rfl, ?_⟩
  intro h
  simp [filter_env_vars, explicitEnvW] at h

/-- C8 (amended): under core_only, a secret-suffixed key that is neither in
the core allow-list nor supplied in the explicit overrides is absent from the
result; and a base key that does not match a secret suffix and is not
overridden explicitly is kept with its value unchanged. -/
theorem C8_core_only_filtering (base explicit : Env) (k : String)
    (hex : explicit k = none) :
    (is_secret k = true → CORE_VARS.contains k = false →
      filter_env_vars .core_only base explicit k = none) ∧
    (is_secret k = false →
      filter_env_vars .core_only base explicit k = base k) := by
  constructor
  · intro hs hc
    unfold filter_env_vars
    simp only [hex, hs, hc]
    rfl
  · intro hs
    unfold filter_env_vars
    simp only [hex, hs]
    simp

theorem C8_witness :
    is_secret "MY_TOKEN" = true ∧
    baseEnvSecretW "MY_TOKEN" = some "s" ∧
    filter_env_vars .core_only baseEnvSecretW emptyEnvW "MY_TOKEN" = none ∧
    filter_env_vars .core_only baseEnvSecretW emptyEnvW "FOO" = some "1" := by
  have h1 := C8_core_only_filtering baseEnvSecretW emptyEnvW "MY_TOKEN" rfl
  have h2 := C8_core_only_filtering baseEnvSecretW emptyEnvW "FOO" rfl
  exact ⟨by decide, rfl, h1.1 (by decide) (by decide), h2.2 (by decide)⟩

/-! ## C5: local exec_command timeout sentinel -/

/-- C5: every result of `LocalBackend.exec_command` satisfies: timed_out
implies the sentinel exit code -1; the timeout path yields empty stdout, the
diagnostic stderr, the sentinel exit code and duration measured from start to
the cancellation point; natural completion yields timed_out = false and the
real process exit code (`returncode or 0`). -/
theorem C5_local_timeout_sentinel (cmd : String) (timeoutArg : Option Nat)
    (w : WaitOutcome) (tStartMs tWaitEndMs : Nat) :
    ((localExecCommand cmd timeoutArg w tStartMs tWaitEndMs).timed_out = true →
      (localExecCommand cmd timeoutArg w tStartMs tWaitEndMs).exit_code = -1) ∧
    (w = .timedOut →
      localExecCommand cmd timeoutArg w tStartMs tWaitEndMs =
        { stdout := ""
          stderr := "Command timed out after " ++ timeoutText timeoutArg
            ++ "s: " ++ cmd
          exit_code := -1
          timed_out := true
          duration_ms := tWaitEndMs - tStartMs }) ∧
    (∀ o e rc, w = .completed o e rc →
      (localExecCommand cmd timeoutArg w tStartMs tWaitEndMs).timed_out = false ∧
      (localExecCommand cmd timeoutArg w tStartMs tWaitEndMs).exit_code =
        pyOrZero rc) := by
  refine ⟨?_, ?_, ?_⟩
  · intro h
    cases w with
    | timedOut => rfl
    | completed o e rc => simp [localExecCommand] at h
  · intro h
    subst h
    rfl
  · intro o e rc h
    subst h
    exact ⟨rfl, rfl⟩

theorem C5_witness :
    (localExecCommand "sleep 10" (some 1) .timedOut 100 1100).exit_code = -1 ∧
    (localExecCommand "echo hi" none
      (.completed (some "hi") none (some 0)) 5 9).timed_out = false := by
  refine ⟨(C5_local_timeout_sentinel "sleep 10" (some 1) .timedOut 100 1100).1
    rfl, ?_⟩
  exact ((C5_local_timeout_sentinel "echo hi" none
    (.completed (some "hi") none (some 0)) 5 9).2.2 (some "hi") none (some 0)
    rfl).1

/-! ## C10: remote backends never time out -/

/-- C10: every result returned by `DockerBackend.exec_command` or
`SSHBackendWrapper.exec_command` has timed_out = false, for every timeout
argument and every response of the injected remote-exec callable. -/
theorem C10_remote_never_timed_out (q : String → String) (cmd : String)
    (env_vars : List (String × String)) (timeoutArg : Option Nat)
    (workdirArg : Option String)
    (dremote : String → Option Nat → Option String → ToolOutput)
    (sremote : String → Option Nat → SshRunResult) (elapsedMs : Nat) :
    (dockerExecCommand q cmd env_vars timeoutArg workdirArg dremote
        elapsedMs).timed_out = false ∧
    (sshExecCommand q cmd env_vars timeoutArg workdirArg sremote
        elapsedMs).timed_out = false :=
  ⟨rfl, rfl⟩

/-! ## C9: grep zero matches vs malformed pattern -/

/-- C9 counterexample: on grep exit code 2 (malformed pattern) the docker and
ssh backends do not fail — they return the remote stdout as a value — while
the local backend raises; so "a malformed pattern is a hard failure" does not
hold for every backend. -/
theorem C9_counterexample :
    dockerGrep ⟨some "", some "grep: bad pattern", some 2⟩ = .ok "" ∧
    sshGrep ⟨"", "grep: bad pattern", 2⟩ = .ok "" ∧
    localGrep (some 2) "" "grep: bad pattern" =
      .error "grep failed: grep: bad pattern" := by
  refine ⟨rfl, rfl, rfl⟩

/-- C9 (amended): all three backends translate grep exit code 1 into the
value "No matches found." rather than an exception; an exit code greater
than 1 is a hard failure on the local backend, while the docker and ssh
backends return the remote stdout as a value for any exit code other than
1. -/
theorem C9_grep_no_matches_value (stdout stderr : String) (rc : Int)
    (out : ToolOutput) (r : SshRunResult) :
    (localGrep (some 1) stdout stderr = .ok "No matches found.") ∧
    (out.exit_code.getD 0 = 1 → dockerGrep out = .ok "No matches found.") ∧
    (r.exit_code = 1 → sshGrep r = .ok "No matches found.") ∧
    (rc > 1 → localGrep (some rc) stdout stderr =
      .error ("grep failed: " ++ stderr)) ∧
    (out.exit_code.getD 0 ≠ 1 → dockerGrep out = .ok (out.stdout.getD "")) ∧
    (r.exit_code ≠ 1 → sshGrep r = .ok r.stdout) := by
  refine ⟨rfl, ?_, ?_, ?_, ?_, ?_⟩
  · intro h
    simp [dockerGrep, h]
  · intro h
    simp [sshGrep, h]
  · intro h
    have h1 : rc ≠ 1 := by omega
    have h0 : rc ≠ 0 := by omega
    simp [localGrep, pyTruthyInt, h1, h0, h]
  · intro h
    simp [dockerGrep, h]
  · intro h
    simp [sshGrep, h]

theorem C9_witness :
    dockerGrep ⟨some "", some "", some 1⟩ = .ok "No matches found." ∧
    sshGrep ⟨"", "", 1⟩ = .ok "No matches found." ∧
    localGrep (some 2) "out" "err" = .error ("grep failed: " ++ "err") := by
  have h := C9_grep_no_matches_value "out" "err" 2
    ⟨some "", some "", some 1⟩ ⟨"", "", 1⟩
  exact ⟨h.2.1 rfl, h.2.2.1 rfl, h.2.2.2.1 (by norm_num)⟩

/-! ## Registry helper lemmas -/

/-- The registry state after `destroy` is always the erase of the named
entry (erasing nothing when the name is unknown). -/
theorem destroy_state_eq {β ε : Type} (clr : β → Except ε Unit)
    (reg : Registry β) (name : String) :
    (destroy clr reg name).1 = reg.eraseP (fun i => i.name == name) := by
  unfold destroy
  cases hf : reg.find? (fun i => i.name == name) with
  | none =>
      have hall : ∀ i ∈ reg, ¬((fun i => i.name == name) i = true) :=
        List.find?_eq_none.mp hf
      simp only []
      rw [List.eraseP_of_forall_not hall]
  | some inst => simp only []

/-- The registry state after `destroy` is a sublist of the input state. -/
theorem destroy_state_sublist {β ε : Type} (clr : β → Except ε Unit)
    (reg : Registry β) (name : String) :
    (destroy clr reg name).1.Sublist reg := by
  rw [destroy_state_eq]
  exact List.eraseP_sublist reg

/-- The state reached by the destroy_all loop is a sublist of the input. -/
theorem destroyAllGo_state_sublist {β ε : Type} (clr : β → Except ε Unit) :
    ∀ (names : List String) (reg : Registry β),
      (destroyAllGo clr reg names).1.Sublist reg
  | [], reg => List.Sublist.refl reg
  | n :: rest, reg =>
      (destroyAllGo_state_sublist clr rest (destroy clr reg n).1).trans
        (destroy_state_sublist clr reg n)

/-- Name uniqueness is inherited along registry sublists. -/
theorem namesNodup_of_sublist {β : Type} {r1 r2 : Registry β}
    (h : r1.Sublist r2) (h2 : NamesNodup r2) : NamesNodup r1 :=
  List.Nodup.sublist (h.map (fun i => i.name)) h2

/-- With unique names, after erasing the entry named `name` no remaining
entry carries that name. -/
theorem eraseP_name_not_mem {β : Type} (name : String) :
    ∀ (reg : Registry β), NamesNodup reg →
      ∀ v ∈ reg.eraseP (fun i => i.name == name), v.name ≠ name := by
  intro reg
  induction reg with
  | nil => intro _ v hv; simp at hv
  | cons i rest ih =>
      intro h v hv
      rw [NamesNodup, List.map_cons, List.nodup_cons] at h
      obtain ⟨hni, hrest⟩ := h
      by_cases hb : i.name = name
      · rw [List.eraseP_cons_of_pos (by simp [hb])] at hv
        intro hv2
        exact hni (by rw [hb, ← hv2]; exact List.mem_map_of_mem _ hv)
      · rw [List.eraseP_cons_of_neg (by simp [hb])] at hv
        rcases List.mem_cons.mp hv with rfl | hv3
        · exact hb
        · exact ih hrest v hv3

/-! ## C1: destroy removes before cleanup -/

/-- C1: `destroy` pops the entry from the map before invoking the backend
cleanup, so for every cleanup outcome (success or raise) the name is absent
from `list_instances` afterwards; and `destroy` on an unknown name fails
with the not-found error and leaves the registry map unchanged. -/
theorem C1_destroy_removes_entry {β ε : Type} (clr : β → Except ε Unit)
    (reg : Registry β) (name : String) (info : β → List (String × String)) :
    (NamesNodup reg →
      ∀ v ∈ list_instances info (destroy clr reg name).1, v.name ≠ name) ∧
    ((∀ i ∈ reg, i.name ≠ name) →
      destroy clr reg name = (reg, [], .error .notFound)) := by
  constructor
  · intro h v hv
    rw [destroy_state_eq] at hv
    simp only [list_instances, List.mem_map] at hv
    obtain ⟨i, hi, rfl⟩ := hv
    exact eraseP_name_not_mem name reg h i hi
  · intro h
    unfold destroy
    have hf : reg.find? (fun i => i.name == name) = none :=
      List.find?_eq_none.mpr (fun i hi => by simp [h i hi])
    rw [hf]

theorem C1_witness :
    NamesNodup regW ∧
    (∀ v ∈ list_instances infoW (destroy clrW regW "a").1, v.name ≠ "a") ∧
    destroy clrW regW "zzz" = (regW, [], .error .notFound) := by
  refine ⟨by decide, ?_, ?_⟩
  · exact (C1_destroy_removes_entry clrW regW "a" infoW).1 (by decide)
  · exact (C1_destroy_removes_entry clrW regW "zzz" infoW).2 (by decide)

/-! ## C2: destroy_all -/

/-- `destroy` on a name different from the head entry leaves the head in
place and acts on the tail. -/
theorem destroy_cons_ne {β ε : Type} (clr : β → Except ε Unit)
    (i : EnvironmentInstance β) (reg : Registry β) (n : String)
    (h : i.name ≠ n) :
    destroy clr (i :: reg) n =
      (i :: (destroy clr reg n).1, (destroy clr reg n).2.1,
        (destroy clr reg n).2.2) := by
  unfold destroy
  rw [List.find?_cons_of_neg _ (by simp [h])]
  cases hf : reg.find? (fun j => j.name == n) with
  | none => rfl
  | some inst =>
      simp only []
      rw [List.eraseP_cons_of_neg (by simp [h])]

/-- The destroy_all loop ignores an entry whose name is not in the list. -/
theorem destroyAllGo_skip {β ε : Type} (clr : β → Except ε Unit)
    (i : EnvironmentInstance β) :
    ∀ (names : List String) (reg : Registry β), i.name ∉ names →
      destroyAllGo clr (i :: reg) names =
        (i :: (destroyAllGo clr reg names).1,
          (destroyAllGo clr reg names).2.1,
          (destroyAllGo clr reg names).2.2) := by
  intro names
  induction names with
  | nil => intro reg _; rfl
  | cons n rest ih =>
      intro reg h
      have hne : i.name ≠ n := fun hh => h (by simp [hh])
      have hrest : i.name ∉ rest := fun hh => h (by simp [hh])
      simp only [destroyAllGo]
      rw [destroy_cons_ne clr i reg n hne]
      rw [ih (destroy clr reg n).1 hrest]

/-- `firstCleanupErr` over a cons. -/
theorem firstCleanupErr_cons {β ε : Type} (clr : β → Except ε Unit)
    (i : EnvironmentInstance β) (l : List (EnvironmentInstance β)) :
    firstCleanupErr clr (i :: l) =
      (match clr i.backend with
        | .error e => some (DestroyErr.cleanupFailed e)
        | .ok _ => firstCleanupErr clr l) := by
  cases hc : clr i.backend <;>
    simp [firstCleanupErr, List.findSome?_cons, hc]

/-- The destroy_all loop over exactly the owned names: cleanup is attempted
on every owned entry in order, the unowned entries survive, and the first
failure is retained. -/
theorem destroyAllGo_owned_eq {β ε : Type} (clr : β → Except ε Unit) :
    ∀ (reg : Registry β), NamesNodup reg →
      destroyAllGo clr reg
          ((reg.filter (fun i => i.owned)).map (fun i => i.name)) =
        (reg.filter (fun i => !i.owned),
          (reg.filter (fun i => i.owned)).map (fun i => (i.name, i.backend)),
          firstCleanupErr clr (reg.filter (fun i => i.owned))) := by
  intro reg
  induction reg with
  | nil => intro _; rfl
  | cons i rest ih =>
      intro h
      rw [NamesNodup, List.map_cons, List.nodup_cons] at h
      obtain ⟨hni, hrest⟩ := h
      by_cases ho : i.owned
      · rw [List.filter_cons_of_pos (by simp [ho]), List.map_cons,
          List.map_cons, List.filter_cons_of_neg (by simp [ho]),
          firstCleanupErr_cons]
        simp only [destroyAllGo]
        have hd : destroy clr (i :: rest) i.name =
            (rest, [(i.name, i.backend)],
              match clr i.backend with
              | .ok _ => .ok ()
              | .error e => .error (.cleanupFailed e)) := by
          unfold destroy
          rw [List.find?_cons_of_pos _ (by simp)]
          simp only []
          rw [List.eraseP_cons_of_pos (by simp)]
        rw [hd, ih hrest]
        cases hc : clr i.backend <;> rfl
      · rw [List.filter_cons_of_neg (by simp [ho]),
          List.filter_cons_of_pos (by simp [ho])]
        have hnotin :
            i.name ∉ (rest.filter (fun j => j.owned)).map (fun j => j.name) := by
          intro hmem
          apply hni
          obtain ⟨j, hj, hjeq⟩ := List.mem_map.mp hmem
          exact hjeq ▸ List.mem_map_of_mem _ (List.mem_of_mem_filter hj)
        rw [destroyAllGo_skip clr i _ rest hnotin, ih hrest]

/-- C2: `destroy_all` calls cleanup on every owned instance (in registration
order) and on no unowned instance, continues past individual failures,
leaves the registry holding exactly the previously-unowned entries, and
re-raises the first cleanup failure encountered, if any. -/
theorem C2_destroy_all_owned {β ε : Type} (clr : β → Except ε Unit)
    (reg : Registry β) (h : NamesNodup reg) :
    (destroy_all clr reg).2.1 =
      (reg.filter (fun i => i.owned)).map (fun i => (i.name, i.backend)) ∧
    (destroy_all clr reg).1 = reg.filter (fun i => !i.owned) ∧
    (destroy_all clr reg).2.2 =
      (match firstCleanupErr clr (reg.filter (fun i => i.owned)) with
        | some e => .error e
        | none => .ok ()) := by
  simp only [destroy_all]
  rw [destroyAllGo_owned_eq clr reg h]
  exact ⟨rfl, rfl, rfl⟩

theorem C2_witness :
    NamesNodup regW ∧
    (destroy_all clrW regW).2.1 = [("a", 1), ("c", 3)] ∧
    (destroy_all clrW regW).1 = [⟨"b", 2, "docker", [], false⟩] ∧
    (destroy_all clrW regW).2.2 = .error (.cleanupFailed "boom") := by
  have h := C2_destroy_all_owned clrW regW (by decide)
  exact ⟨by decide, h.1.trans (by rfl), h.2.1.trans (by rfl),
    h.2.2.trans (by rfl)⟩

/-! ## C3: name uniqueness invariant -/

/-- C3: in every reachable registry state each name maps to at most one
instance; `register` on an existing name fails without modifying the
registry (the embedding returns no new state on error, so the first
registration is untouched), and a successful `register` appends exactly the
one new entry. -/
theorem C3_register_unique {β : Type} :
    (∀ reg : Registry β, Reachable reg → NamesNodup reg) ∧
    (∀ (reg : Registry β) (name : String) (backend : β) (env_type : String)
        (metadata : List (String × String)) (owned : Bool),
      (∃ i ∈ reg, i.name = name) →
      register reg name backend env_type metadata owned =
        .error ("Instance already exists: " ++ name)) ∧
    (∀ (reg : Registry β) (name : String) (backend : β) (env_type : String)
        (metadata : List (String × String)) (owned : Bool),
      (∀ i ∈ reg, i.name ≠ name) →
      register reg name backend env_type metadata owned =
        .ok (reg ++ [⟨name, backend, env_type, metadata, owned⟩])) := by
  refine ⟨?_, ?_, ?_⟩
  · intro reg hr
    induction hr with
    | empty => exact List.nodup_nil
    | registerStep reg0 reg2 name backend env_type metadata owned hr hok ih =>
        unfold register at hok
        by_cases hany : reg0.any (fun i => i.name == name) = true
        · rw [if_pos hany] at hok
          exact absurd hok (by simp)
        · rw [if_neg hany] at hok
          injection hok with hok
          subst hok
          have hnom : ∀ a ∈ List.map
              (fun i : EnvironmentInstance β => i.name) reg0, a ≠ name := by
            intro a ha hEq
            obtain ⟨j, hj, hjeq⟩ := List.mem_map.mp ha
            exact hany (List.any_eq_true.mpr ⟨j, hj, by simp [hjeq, hEq]⟩)
          rw [NamesNodup, List.map_append, List.map_cons, List.map_nil]
          rw [List.nodup_append]
          exact ⟨ih, List.nodup_singleton name,
            fun a ha hb => by simp at hb; exact hnom a ha hb⟩
    | destroyStep clr reg0 name hr ih =>
        exact namesNodup_of_sublist (destroy_state_sublist clr reg0 name) ih
    | destroyAllStep clr reg0 hr ih =>
        exact namesNodup_of_sublist (destroyAllGo_state_sublist clr _ reg0) ih
  · intro reg name backend env_type metadata owned hex
    obtain ⟨i, hi, hieq⟩ := hex
    unfold register
    rw [if_pos (List.any_eq_true.mpr ⟨i, hi, by simp [hieq]⟩)]
  · intro reg name backend env_type metadata owned h
    unfold register
    have hany : ¬(reg.any (fun i => i.name == name) = true) := by
      intro ha
      obtain ⟨i, hi, hieq⟩ := List.any_eq_true.mp ha
      exact h i hi (by simpa using hieq)
    rw [if_neg hany]

theorem C3_witness :
    NamesNodup [(⟨"a", 1, "local", [], true⟩ : EnvironmentInstance Nat)] ∧
    register regW "a" (4 : Nat) "local" [] true =
      .error ("Instance already exists: " ++ "a") ∧
    register regW "d" (4 : Nat) "local" [] true =
      .ok (regW ++ [⟨"d", 4, "local", [], true⟩]) := by
  have h := @C3_register_unique Nat
  have hreach : Reachable (β := Nat) [⟨"a", 1, "local", [], true⟩] :=
    Reachable.registerStep [] _ "a" 1 "local" [] true Reachable.empty rfl
  exact ⟨h.1 _ hreach, h.2.1 regW "a" 4 "local" [] true (by decide),
    h.2.2 regW "d" 4 "local" [] true (by decide)⟩

/-! ## C6: edit_file occurrence lemmas -/

/-- A first-match position really is an occurrence. -/
theorem firstOcc_some_occurs (p : List Char) :
    ∀ (s : List Char) (i : Nat), firstOcc p s = some i → occursAt s p i := by
  intro s
  induction s with
  | nil =>
      intro i h
      unfold firstOcc at h
      by_cases hp : p.isEmpty
      · rw [if_pos hp] at h
        injection h with h
        subst h
        rw [List.isEmpty_iff] at hp
        subst hp
        rfl
      · rw [if_neg hp] at h
        exact absurd h (by simp)
  | cons c rest ih =>
      intro i h
      unfold firstOcc at h
      by_cases hpre : p.isPrefixOf (c :: rest) = true
      · rw [if_pos hpre] at h
        injection h with h
        subst h
        exact hpre
      · rw [if_neg hpre] at h
        obtain ⟨j, hj, rfl⟩ := Option.map_eq_some'.mp h
        exact ih j hj

/-- A first-match position is the least occurrence position. -/
theorem firstOcc_some_least (p : List Char) :
    ∀ (s : List Char) (i : Nat), firstOcc p s = some i →
      ∀ j, j < i → ¬ occursAt s p j := by
  intro s
  induction s with
  | nil =>
      intro i h j hj
      unfold firstOcc at h
      by_cases hp : p.isEmpty
      · rw [if_pos hp] at h
        injection h with h
        exact absurd hj (by omega)
      · rw [if_neg hp] at h
        exact absurd h (by simp)
  | cons c rest ih =>
      intro i h j hj
      unfold firstOcc at h
      by_cases hpre : p.isPrefixOf (c :: rest) = true
      · rw [if_pos hpre] at h
        injection h with h
        exact absurd hj (by omega)
      · rw [if_neg hpre] at h
        obtain ⟨j0, hj0, rfl⟩ := Option.map_eq_some'.mp h
        cases j with
        | zero => exact hpre
        | succ k => exact ih j0 hj0 k (by omega)

/-- For a nonempty pattern, the count scan returns zero exactly when there
is no first match. -/
theorem pyCountGo_eq_zero_iff (p : List Char) (hp : ¬ p.isEmpty = true) :
    ∀ s : List Char, (pyCountGo p s = 0 ↔ firstOcc p s = none) := by
  intro s
  induction s with
  | nil =>
      constructor
      · intro _
        unfold firstOcc
        rw [if_neg hp]
      · intro _
        simp [pyCountGo]
  | cons c rest ih =>
      by_cases hpre : p.isPrefixOf (c :: rest) = true
      · constructor
        · intro h
          rw [pyCountGo, if_pos hpre] at h
          exact absurd h (by simp)
        · intro h
          rw [firstOcc, if_pos hpre] at h
          exact absurd h (by simp)
      · constructor
        · intro h
          rw [pyCountGo, if_neg hpre] at h
          rw [firstOcc, if_neg hpre]
          rw [ih.mp h]
          rfl
        · intro h
          rw [firstOcc, if_neg hpre] at h
          rw [pyCountGo, if_neg hpre]
          exact ih.mpr (by simpa using h)

/-- `content.count(old) == 0` exactly when there is no first match. -/
theorem pyCount_eq_zero_iff (s p : List Char) :
    pyCount s p = 0 ↔ firstOcc p s = none := by
  unfold pyCount
  by_cases hp : p.isEmpty = true
  · rw [if_pos hp]
    constructor
    · intro h
      exact absurd h (by simp)
    · intro h
      exfalso
      rw [List.isEmpty_iff] at hp
      subst hp
      cases s with
      | nil => simp [firstOcc] at h
      | cons c rest => simp [firstOcc] at h
  · rw [if_neg hp]
    exact pyCountGo_eq_zero_iff p hp s

/-- The replace scan for a nonempty pattern splices `new` in at the first
match position, and leaves the list unchanged when there is none. -/
theorem pyReplaceOnceGo_eq (old new : List Char) (hold : ¬ old.isEmpty = true) :
    ∀ s : List Char,
      pyReplaceOnceGo old new s =
        (match firstOcc old s with
          | some i => spliceAt s old new i
          | none => s) := by
  intro s
  induction s with
  | nil =>
      unfold firstOcc
      rw [if_neg hold]
      rfl
  | cons c rest ih =>
      by_cases hpre : old.isPrefixOf (c :: rest) = true
      · rw [pyReplaceOnceGo, if_pos hpre, firstOcc, if_pos hpre]
        unfold spliceAt
        simp
      · rw [pyReplaceOnceGo, if_neg hpre, firstOcc, if_neg hpre, ih]
        cases hf : firstOcc old rest with
        | none => rfl
        | some j =>
            simp only [Option.map_some']
            unfold spliceAt
            have hidx : j + 1 + old.length = (j + old.length) + 1 := by omega
            rw [hidx]
            simp [List.take_succ_cons, List.drop_succ_cons]

/-- `content.replace(old, new, 1)` splices `new` in at the first match
position (inserting at the front for an empty `old`). -/
theorem pyReplaceOnce_eq (s old new : List Char) :
    pyReplaceOnce s old new =
      (match firstOcc old s with
        | some i => spliceAt s old new i
        | none => s) := by
  unfold pyReplaceOnce
  by_cases hold : old.isEmpty = true
  · rw [if_pos hold]
    rw [List.isEmpty_iff] at hold
    subst hold
    cases s with
    | nil => simp [firstOcc, spliceAt]
    | cons c rest => simp [firstOcc, spliceAt]
  · rw [if_neg hold]
    exact pyReplaceOnceGo_eq old new hold s

/-- C6 counterexample: in the content `aaa` the string `aa` occurs at the two
distinct positions 0 and 1, yet `edit_file` does not fail with the
not-unique condition — the non-overlapping count is 1, so it silently
replaces the occurrence at position 0. -/
theorem C6_counterexample :
    occursAt [ 'a', 'a', 'a' ] [ 'a', 'a' ] 0 ∧
    occursAt [ 'a', 'a', 'a' ] [ 'a', 'a' ] 1 ∧
    runEditFile [ 'a', 'a', 'a' ] [ 'a', 'a' ] [ 'X' ] =
      ([ 'X', 'a' ], .ok "replaced 1 occurrence") := by
  refine ⟨by decide, by decide, ?_⟩
  have hc : pyCount [ 'a', 'a', 'a' ] [ 'a', 'a' ] = 1 := by
    simp [pyCount, pyCountGo]
  unfold runEditFile edit_file
  rw [hc]
  norm_num
  decide

/-- C6 (amended): for the shared edit_file logic of the local, docker and
ssh backends: when `old` has no occurrence in the content, edit_file fails
not-found with the content unchanged; when the non-overlapping
(left-to-right, Python `str.count`) occurrence count is two or more,
edit_file fails not-unique with the content unchanged; and when that count
is exactly one, the new content is the single substring replacement at the
first occurrence position and a confirmation string is returned. -/
theorem C6_edit_file_unique (content old new : List Char) :
    ((∀ i, ¬ occursAt content old i) →
      runEditFile content old new = (content, .error .notFound)) ∧
    (2 ≤ pyCount content old →
      runEditFile content old new =
        (content, .error (.notUnique (pyCount content old)))) ∧
    (pyCount content old = 1 →
      ∃ i, occursAt content old i ∧ (∀ j, j < i → ¬ occursAt content old j) ∧
        runEditFile content old new =
          (spliceAt content old new i, .ok "replaced 1 occurrence")) := by
  refine ⟨?_, ?_, ?_⟩
  · intro h
    have hz : pyCount content old = 0 := by
      rw [pyCount_eq_zero_iff]
      cases hf : firstOcc old content with
      | none => rfl
      | some i => exact absurd (firstOcc_some_occurs old content i hf) (h i)
    unfold runEditFile edit_file
    simp [hz]
  · intro h
    unfold runEditFile edit_file
    rw [if_neg (by omega), if_pos (by omega)]
  · intro h
    have hne : firstOcc old content ≠ none := by
      intro hn
      rw [← pyCount_eq_zero_iff] at hn
      omega
    obtain ⟨i, hf⟩ := Option.ne_none_iff_exists'.mp hne
    refine ⟨i, firstOcc_some_occurs old content i hf,
      firstOcc_some_least old content i hf, ?_⟩
    unfold runEditFile edit_file
    rw [if_neg (by omega), if_neg (by omega)]
    rw [pyReplaceOnce_eq, hf]

theorem C6_witness :
    (∀ i, ¬ occursAt [ 'a', 'b' ] [ 'z' ] i) ∧
    runEditFile [ 'a', 'b' ] [ 'z' ] [ 'w' ] =
      ([ 'a', 'b' ], .error .notFound) ∧
    pyCount [ 'a', 'b', 'a' ] [ 'b' ] = 1 ∧
    runEditFile [ 'a', 'b', 'a' ] [ 'b' ] [ 'w' ] =
      ([ 'a', 'w', 'a' ], .ok "replaced 1 occurrence") := by
  have h1 := C6_edit_file_unique [ 'a', 'b' ] [ 'z' ] [ 'w' ]
  have h2 := C6_edit_file_unique [ 'a', 'b', 'a' ] [ 'b' ] [ 'w' ]
  have hno : ∀ i, ¬ occursAt [ 'a', 'b' ] [ 'z' ] i := by
    intro i
    unfold occursAt
    cases i with
    | zero => decide
    | succ k =>
        cases k with
        | zero => decide
        | succ m => simp
  have hc1 : pyCount [ 'a', 'b', 'a' ] [ 'b' ] = 1 := by
    simp [pyCount, pyCountGo]
  refine ⟨hno, h1.1 hno, hc1, ?_⟩
  obtain ⟨i, hocc, hleast, heq⟩ := h2.2.2 hc1
  have hi : i = 1 := by
    by_contra hne
    rcases Nat.lt_or_ge i 1 with hlt | hge
    · interval_cases i
      · exact absurd hocc (by decide)
    · have h2le : 2 ≤ i := by omega
      exact hleast 1 (by omega) (by decide)
  subst hi
  simpa [spliceAt] using heq

/-! ## C4: path sandboxing -/

/-- C4 counterexample: the workdir argument of `exec_command` is taken as
`cwd = workdir or self._working_dir` without going through `_resolve`, so a
workdir that resolves outside the configured working directory (here
`/etc` against working directory `/home/user`) is accepted without any
escapes-working-directory failure. -/
theorem C4_counterexample :
    resolveAgainst [ "home", "user" ] ⟨true, [ "etc" ]⟩ = [ "etc" ] ∧
    (normComps [ "home", "user" ]).isPrefixOf
      (resolveAgainst [ "home", "user" ] ⟨true, [ "etc" ]⟩) = false ∧
    localExecCwd [ "home", "user" ] (some ⟨true, [ "etc" ]⟩) =
      .ok ⟨true, [ "etc" ]⟩ := by
  refine ⟨by decide, by decide, rfl⟩

/-- C4 (amended): every local-backend file operation resolves its path
argument through `_resolve`, which rejects exactly the paths whose resolved
absolute, symlink-free form lies outside the configured working directory
(including absolute input paths) and accepts the rest; but the workdir
argument of `exec_command` is not validated by this check — it is used as
given and the cwd computation never fails. -/
theorem C4_path_sandbox (workingDir : List String) (p : RawPath)
    (w : Option RawPath) :
    (¬ (normComps workingDir).isPrefixOf (resolveAgainst workingDir p) = true →
      localResolve workingDir p = .error "Path escapes working directory") ∧
    ((normComps workingDir).isPrefixOf (resolveAgainst workingDir p) = true →
      localResolve workingDir p = .ok (resolveAgainst workingDir p)) ∧
    (p.absolute = true →
      ¬ (normComps workingDir).isPrefixOf (normComps p.comps) = true →
      localResolve workingDir p = .error "Path escapes working directory") ∧
    (∃ r, localExecCwd workingDir w = .ok r) := by
  refine ⟨?_, ?_, ?_, ⟨_, rfl⟩⟩
  · intro h
    simp only [localResolve]
    rw [if_neg h]
  · intro h
    simp only [localResolve]
    rw [if_pos h]
  · intro habs h
    have hres : resolveAgainst workingDir p = normComps p.comps := by
      unfold resolveAgainst
      rw [if_pos habs]
    simp only [localResolve]
    rw [hres, if_neg h]

theorem C4_witness :
    localResolve [ "home", "user" ] ⟨false, [ "..", "..", "etc" ]⟩ =
      .error "Path escapes working directory" ∧
    localResolve [ "home", "user" ] ⟨true, [ "etc", "passwd" ]⟩ =
      .error "Path escapes working directory" ∧
    localResolve [ "home", "user" ] ⟨false, [ "sub", "f.txt" ]⟩ =
      .ok [ "home", "user", "sub", "f.txt" ] ∧
    localExecCwd [ "home", "user" ] (some ⟨true, [ "etc" ]⟩) =
      .ok ⟨true, [ "etc" ]⟩ := by
  have h1 := C4_path_sandbox [ "home", "user" ] ⟨false, [ "..", "..", "etc" ]⟩
    (some ⟨true, [ "etc" ]⟩)
  have h2 := C4_path_sandbox [ "home", "user" ] ⟨true, [ "etc", "passwd" ]⟩
    (some ⟨true, [ "etc" ]⟩)
  have h3 := C4_path_sandbox [ "home", "user" ] ⟨false, [ "sub", "f.txt" ]⟩
    (some ⟨true, [ "etc" ]⟩)
  refine ⟨h1.1 (by decide), h2.2.2.1 rfl (by decide), ?_, rfl⟩
  exact (h3.2.1 (by decide)).trans (congrArg Except.ok (by decide))
